import Mathlib

/-!
Verification development for the path-tracking core of the
`USDCN-project13_SystemIntegration` repository.

Shallow embedding of the two source files:
  * `src/ros/src/waypoint_updater/waypoint_updater.py`
  * `src/ros/src/twist_controller/dbw_node.py`

Python floats are modelled by `ℝ` (for the waypoint updater, whose logic
uses `math.sqrt`) and by `ℚ` (for the dbw node, whose claims only concern
control flow).  Python lists of mutable waypoint objects are modelled by a
base list `List Waypoint` together with index lists (`List Nat`) standing
for lists of references into the base list, so aliasing between the
lookahead window and the base path is captured faithfully.  Fallible code
(Python statements that can raise) returns `Except PyExn`.
-/

namespace SysInt

/-- A Python exception escaping a function uncaught.  `indexError` models
`IndexError` from list indexing, `attributeError` models `AttributeError`
from attribute access on `None`. -/
inductive PyExn where
  | indexError : PyExn
  | attributeError : PyExn
  deriving DecidableEq, Repr

/-- A waypoint of `styx_msgs.msg.Waypoint` as used by the updater:
`pose.pose.position` (x, y, z) and `twist.twist.linear.x` (the mutable
target velocity). -/
@[ext]
structure Waypoint where
  px : ℝ
  py : ℝ
  pz : ℝ
  v : ℝ

/-- Default waypoint used for out-of-range `getD` reads (Python would raise
instead; every in-contract read in the source is in range). -/
def wp0 : Waypoint := ⟨0, 0, 0, 0⟩

/-- `LOOKAHEAD_WPS` from `waypoint_updater.py` line 9. -/
def LOOKAHEAD_WPS : Nat := 100

/-- `max_local_dist` from `waypoint_updater.py` line 12. -/
def max_local_dist : ℝ := 20

/-- The distance lambda `dl` of `WaypointUpdater.distance` /
`WaypointUpdater.sameWP`: 3-D Euclidean distance between waypoint
positions. -/
noncomputable def dl (a b : Waypoint) : ℝ :=
  Real.sqrt ((a.px - b.px) ^ 2 + (a.py - b.py) ^ 2 + (a.pz - b.pz) ^ 2)

/-- `WaypointUpdater.get_wpVel` where `waypoints` is a list of references
(`win`) into the base list `B`: `waypoints[i].twist.twist.linear.x`. -/
def get_wpVel (B : List Waypoint) (win : List Nat) (i : Nat) : ℝ :=
  (B.getD (win.getD i 0) wp0).v

/-- Write the velocity field of base cell `c` (the mutable
`twist.twist.linear.x` of one waypoint object). -/
def setVelAt (B : List Waypoint) (c : Nat) (vel : ℝ) : List Waypoint :=
  B.set c { B.getD c wp0 with v := vel }

/-- `WaypointUpdater.set_wpVel` on the reference-list representation:
writes the velocity field of the object referenced by slot `i` of
`win`. -/
def set_wpVel (B : List Waypoint) (win : List Nat) (i : Nat) (vel : ℝ) :
    List Waypoint :=
  setVelAt B (win.getD i 0) vel

/-- Position-only projection of a waypoint, used to state that profiling
does not move waypoints. -/
def wpos (w : Waypoint) : ℝ × ℝ × ℝ := (w.px, w.py, w.pz)

/-- `WaypointUpdater.distance(waypoints, wp1, wp2)`: walks `i` from `wp1`
to `wp2` accumulating `dl(waypoints[wp1], waypoints[i])` and moving `wp1`
to `i` each step (so the first summand is a zero self-distance).
`waypoints` is the reference list `win` into `B`. -/
noncomputable def wdistance (B : List Waypoint) (win : List Nat) (wp1 wp2 : Nat) : ℝ :=
  ((List.range' wp1 (wp2 + 1 - wp1)).foldl
    (fun (s : ℝ × Nat) i =>
      (s.1 + dl (B.getD (win.getD s.2 0) wp0) (B.getD (win.getD i 0) wp0), i))
    (0, wp1)).1

/-- The fixed data of one `WaypointUpdater.deaccel` call: the stop index
`S`, the `stop_distance` argument `D`, the instance attribute
`self.stop_distance` (`sd`), `self.accel` (`a`), the per-step arc length
`step`, and the reference list `win` for the `waypoints` argument. -/
structure DCfg where
  S : Nat
  D : ℝ
  sd : ℝ
  a : ℝ
  step : ℝ
  win : List Nat

/-- One iteration of the `for idx in reversed(range(len(waypoints)))` loop
of `WaypointUpdater.deaccel` (lines 177-183), acting on the loop state
`(vel, d, base)`.  Note the source compares `d` against
`self.stop_distance` (`cfg.sd`) but subtracts the `stop_distance`
parameter (`cfg.D`) inside the square root. -/
noncomputable def deaccelStep (cfg : DCfg) (s : ℝ × ℝ × List Waypoint) (idx : Nat) :
    ℝ × ℝ × List Waypoint :=
  let vd : ℝ × ℝ :=
    if idx < cfg.S then
      let d' := s.2.1 + cfg.step
      (if d' > cfg.sd then Real.sqrt (2 * |cfg.a| * (d' - cfg.D)) else s.1, d')
    else (s.1, s.2.1)
  let B' :=
    if vd.1 < get_wpVel s.2.2 cfg.win idx then
      set_wpVel s.2.2 cfg.win idx vd.1
    else s.2.2
  (vd.1, vd.2, B')

/-- `WaypointUpdater.deaccel(waypoints, stop_index, stop_distance)` (lines
169-183).  `sd` is `self.stop_distance`, `a` is `self.accel`, `B` the base
waypoint store and `win` the reference list for the `waypoints` argument.
Returns the updated base store. -/
noncomputable def deaccel (sd a : ℝ) (B : List Waypoint) (win : List Nat)
    (stop_index : Nat) (stop_distance : ℝ) : List Waypoint :=
  if stop_index = 0 then B
  else
    let dist := wdistance B win 0 stop_index
    let step := dist / (stop_index : ℝ)
    (((List.range win.length).reverse).foldl
      (deaccelStep ⟨stop_index, stop_distance, sd, a, step, win⟩)
      (0, 0, B)).2.2

/-- `WaypointUpdater.restore_velocities(indexes)` (lines 165-167): for each
index, set the base waypoint's velocity back to the recorded original
velocity.  (In the source every restored index is a valid index of
`original_wpvel`; out-of-range reads are modelled by `getD _ 0`.) -/
def restore_velocities (B : List Waypoint) (orig : List ℝ)
    (idxs : List Nat) : List Waypoint :=
  idxs.foldl (fun b i => setVelAt b i (orig.getD i 0)) B

/-- The four-waypoint path of the spec's §8 scenario: collinear waypoints
at forward positions 0,1,2,3, each with baseline velocity 5. -/
def pathA : List Waypoint :=
  [⟨0, 0, 0, 5⟩, ⟨1, 0, 0, 5⟩, ⟨2, 0, 0, 5⟩, ⟨3, 0, 0, 5⟩]

/-- Four waypoints spaced 2.0 apart with baseline velocity 10, used to
exercise the end-of-path stop trigger. -/
def pathB : List Waypoint :=
  [⟨0, 0, 0, 10⟩, ⟨2, 0, 0, 10⟩, ⟨4, 0, 0, 10⟩, ⟨6, 0, 0, 10⟩]

/-- Velocity of base cell `c` (reads the mutable velocity field of one
waypoint object; out-of-range reads give the default `wp0`). -/
def cellv (B : List Waypoint) (c : Nat) : ℝ := (B.getD c wp0).v

/-- A one-waypoint path whose waypoint is exactly 1000000 distance units
from the origin. -/
def farPath : List Waypoint := [⟨1000000, 0, 0, 5⟩]

/-- A two-waypoint path at planar distances 0 and 5 from the origin. -/
def path2 : List Waypoint := [⟨0, 0, 0, 1⟩, ⟨3, 4, 0, 1⟩]

/-- The window index list of `WaypointUpdater.updatePublish` line 109:
`[idx % num_base_wp for idx in range(next_waypoint, next_waypoint +
LOOKAHEAD_WPS)]`. -/
def windowIdx (start L : Nat) : List Nat :=
  (List.range' start LOOKAHEAD_WPS).map (fun idx => idx % L)

/-- `final_waypoints` as a value list: the waypoint objects referenced by
`win`, read out of the base store `B` (line 110 builds the same references;
the published message carries their state after profiling). -/
def finalWindow (B : List Waypoint) (win : List Nat) : List Waypoint :=
  win.map (fun i => B.getD i wp0)

/-- Planar (x, y) distance from the car position to a waypoint, the
`wp_d` of `WaypointUpdater.next_wpUpdate` line 76. -/
noncomputable def planarDist (cx cy : ℝ) (w : Waypoint) : ℝ :=
  Real.sqrt ((cx - w.px) ^ 2 + (cy - w.py) ^ 2)

/-- The `for i in range(num_base_wp)` scan of
`WaypointUpdater.next_wpUpdate` (lines 72-86), with its early `break` and
its silent switch to full search.  Arguments after `n` are: remaining
loop indices, `dist`, `wp`, `full_search`. -/
noncomputable def wpScan (cx cy : ℝ) (B : List Waypoint) (off n : Nat) :
    List Nat → ℝ → Option Nat → Bool → Option Nat
  | [], _, wp, _ => wp
  | i :: rest, dist, wp, fs =>
    let idx := (i + off) % n
    let wd := planarDist cx cy (B.getD idx wp0)
    if wd < dist then wpScan cx cy B off n rest wd (some idx) fs
    else if fs then wpScan cx cy B off n rest dist wp fs
    else if dist < max_local_dist then wp
    else wpScan cx cy B off n rest dist wp true

/-- `WaypointUpdater.next_wpUpdate` (lines 49-92): `none` models
`return False`; `some i` models setting `self.next_waypoint = i` and
returning `True`.  Python's `if self.next_waypoint:` is falsy both for
`None` and for index `0`, in which case the scan is a full search from
offset 0 with initial `dist = 1000000`.  (The unused `theta_carpos` of
line 59 is not modelled.) -/
noncomputable def next_wpUpdate (B : List Waypoint) (pose : Option (ℝ × ℝ))
    (next : Option Nat) : Option Nat :=
  if B.isEmpty then none
  else
    match pose with
    | none => none
    | some (cx, cy) =>
      let ofs : Nat × Bool :=
        match next with
        | some k => if k = 0 then (0, true) else (k, false)
        | none => (0, true)
      wpScan cx cy B ofs.1 B.length (List.range B.length) 1000000 none ofs.2

/-- `WaypointUpdater.sameWP(wp1, wp2)` (lines 200-206) at its default
`max_d = 0.5` (the `max_v` parameter is unused by the source). -/
noncomputable def sameWP (w1 w2 : Waypoint) : Prop := dl w1 w2 < 0.5

/-- `sameWP` is a comparison of reals, hence (classically) decidable. -/
noncomputable instance sameWPDec (w1 w2 : Waypoint) : Decidable (sameWP w1 w2) :=
  Real.decidableLT _ _

/-- The `WaypointUpdater` state read and written by the planning tick and
the base-path callback.  `stop_distance` and `accel` are the
`self.stop_distance` / `self.accel` parameters fixed at init. -/
structure UpdState where
  base : List Waypoint
  orig : List ℝ
  next : Option Nat
  pose : Option (ℝ × ℝ)
  red : Option Nat
  stop_on_red : Bool
  force_stop : Bool
  stop_distance : ℝ
  accel : ℝ

/-- `WaypointUpdater.updatePublish` (lines 103-125).  Returns the new
state and the published `final_waypoints` (as values read after
profiling), or `none` when `next_wpUpdate` returned `False`.  The
`waypoint_idx.index(...)` calls with their `try/except` are modelled with
`List.findIdx?`; `original_wpvel[-1]` is Python's last-element read. -/
noncomputable def updatePublish (st : UpdState) : UpdState × Option (List Waypoint) :=
  match next_wpUpdate st.base st.pose st.next with
  | none => (st, none)
  | some nw =>
    let L := st.base.length
    let wIdx := windowIdx nw L
    let base1 :=
      if st.stop_on_red then
        let b := restore_velocities st.base st.orig wIdx
        match st.red with
        | some r =>
          match wIdx.findIdx? (fun x => x == r) with
          | some ri => deaccel st.stop_distance st.accel b wIdx ri st.stop_distance
          | none => b
        | none => b
      else st.base
    let base2 :=
      if st.force_stop ∨ st.orig.getD (st.orig.length - 1) 0 < 1e-5 then
        match wIdx.findIdx? (fun x => x == L - 1) with
        | some li => deaccel st.stop_distance st.accel base1 wIdx li 0
        | none => base1
      else base1
    ({ st with next := some nw, base := base2 }, some (finalWindow base2 wIdx))

/-- `WaypointUpdater.waypoints_cb` (lines 131-151, without the optional
unsubscribe).  Python raises `IndexError` when the tracked index is out of
range of either the old or the new list; otherwise the continuity check
`sameWP` decides whether `next_waypoint` is reset to `None` (the
`rospy.logwarn` side effect is not modelled). -/
noncomputable def waypoints_cb (st : UpdState) (new : List Waypoint) :
    Except PyExn UpdState :=
  if st.base.isEmpty = false ∧ st.next.isSome then
    match st.base[st.next.getD 0]? with
    | none => .error .indexError
    | some ow =>
      match new[st.next.getD 0]? with
      | none => .error .indexError
      | some nw =>
        if sameWP ow nw then
          .ok { st with base := new, orig := new.map (fun w => w.v) }
        else
          .ok { st with base := new, orig := new.map (fun w => w.v), next := none }
  else .ok { st with base := new, orig := new.map (fun w => w.v) }

/-- A concrete updater state tracking index 0 of a one-waypoint path, used
to exercise the base-path callback. -/
def stDisc : UpdState :=
  { base := [⟨0, 0, 0, 5⟩], orig := [5], next := some 0, pose := none,
    red := none, stop_on_red := true, force_stop := true,
    stop_distance := 5, accel := -1 }

/-- A replacement path whose waypoint at index 0 moved 2.0 units. -/
def newDisc : List Waypoint := [⟨2, 0, 0, 5⟩]

/-- `WaypointUpdater.pose_cb` (lines 127-129): stores the received pose. -/
def pose_cb (st : UpdState) (p : ℝ × ℝ) : UpdState := { st with pose := some p }

/-- A 100-waypoint path along the x-axis at unit spacing, baseline
velocity 5 everywhere.  Its length equals `LOOKAHEAD_WPS`, so the 100
slots of any lookahead window reference 100 pairwise distinct
waypoints. -/
noncomputable def pathC : List Waypoint :=
  (List.range 100).map (fun i : Nat => ⟨(i : ℝ), 0, 0, 5⟩)

/-- A concrete updater state on `pathC` with every stored velocity at its
baseline, tracked index 98, car at waypoint 98, `stop_on_red` disabled
and the end-of-path stop forced. -/
noncomputable def stTickC : UpdState :=
  { base := pathC, orig := List.replicate 100 5, next := some 98,
    pose := some (98, 0), red := none, stop_on_red := false,
    force_stop := true, stop_distance := 5, accel := -1 }

/-- The base store after `stTickC`'s planning tick: the end-of-path stop
(at window slot 1, since the last waypoint 99 sits one slot after the
tracked waypoint 98) applied through the window references. -/
noncomputable def B1C : List Waypoint :=
  deaccel 5 (-1) pathC (windowIdx 98 100) 1 0

/-- `stTickC` after its planning tick. -/
noncomputable def stTickC2 : UpdState :=
  { stTickC with next := some 98, base := B1C }

/-- `stTickC2` after a pose callback placing the car at waypoint 99. -/
noncomputable def stTickC3 : UpdState := pose_cb stTickC2 (99, 0)

/-- The `deaccel` loop configuration of `stTickC`'s planning tick
(end-of-path trigger: stop index 1, passed standoff 0). -/
noncomputable def cfgC1 : DCfg :=
  ⟨1, 0, 5, -1,
    wdistance pathC (windowIdx 98 100) 0 1 / ((1 : Nat) : ℝ),
    windowIdx 98 100⟩

/-- One profiling-era operation on the waypoint store, as performed by the
planning tick: a `restore_velocities` call or a `deaccel` call (either
stop trigger, any window reference list). -/
inductive ProfOp where
  | restoreOp : List Nat → ProfOp
  | deaccelOp : List Nat → Nat → ℝ → ProfOp

/-- The waypoint store together with the `original_wpvel` snapshot. -/
structure PState where
  base : List Waypoint
  orig : List ℝ

/-- Apply one profiling operation (with the fixed `self.stop_distance`
and `self.accel` parameters `sd`, `a`). -/
noncomputable def applyOp (sd a : ℝ) (st : PState) : ProfOp → PState
  | .restoreOp idxs => ⟨restore_velocities st.base st.orig idxs, st.orig⟩
  | .deaccelOp win S D => ⟨deaccel sd a st.base win S D, st.orig⟩

/-- Run a sequence of profiling operations. -/
noncomputable def runOps (sd a : ℝ) (st : PState) (ops : List ProfOp) : PState :=
  ops.foldl (applyOp sd a) st

/-- The state established by `waypoints_cb` at path load (line 147):
`original_wpvel` is the snapshot of the arriving waypoints' velocities. -/
def loadState (wps : List Waypoint) : PState := ⟨wps, wps.map (fun w => w.v)⟩

/-- A waypoint as consumed by `dbw_node.py` (only `pose.pose.position.x`
and `.y` are read there).  `dbw_node` claims concern control flow only,
so its floats are modelled by `ℚ`. -/
structure DWaypoint where
  x : ℚ
  y : ℚ
  deriving DecidableEq, Repr

/-- The `current_pose` message (`.pose.position.x`/`.y`). -/
structure DPose where
  x : ℚ
  y : ℚ
  deriving DecidableEq, Repr

/-- A twist message (`.twist.linear.x` and `.twist.angular.z`). -/
structure DTwist where
  linx : ℚ
  angz : ℚ
  deriving DecidableEq, Repr

/-- The library numerics called by `DBWNode.get_cross_track_error`
(`np.arctan2`, `np.cos`, `np.sin`, `np.polyfit`): parameters of the
embedding, since only the call structure matters to the claims.  The
degree-3 `polyfit` result is its four coefficients, highest power
first. -/
structure NumModel where
  atan2 : ℚ → ℚ → ℚ
  ncos : ℚ → ℚ
  nsin : ℚ → ℚ
  polyfit : List (ℚ × ℚ) → ℚ × ℚ × ℚ × ℚ

/-- The all-zero numeric model, used to evaluate control flow on concrete
inputs. -/
def nmZero : NumModel := ⟨fun _ _ => 0, fun _ => 0, fun _ => 0, fun _ => (0, 0, 0, 0)⟩

/-- `np.polyval` on four coefficients, highest power first. -/
def polyval (c : ℚ × ℚ × ℚ × ℚ) (t : ℚ) : ℚ :=
  c.1 * t ^ 3 + c.2.1 * t ^ 2 + c.2.2.1 * t + c.2.2.2

/-- `DBWNode.get_cross_track_error` (dbw_node.py lines 77-107).
`final_waypoints[0]` on an empty window and `shifted_matrix[15]` on a
window shorter than 16 raise `IndexError`; `current_pose.pose` on a
`None` pose raises `AttributeError` (the pose is only dereferenced after
the fit, line 101).  Row `(x, y)` times the rotation matrix gives
`(x·cos + y·sin, -x·sin + y·cos)`. -/
def get_cross_track_error (nm : NumModel) (fw : List DWaypoint)
    (pose : Option DPose) : Except PyExn ℚ :=
  match fw[0]? with
  | none => .error .indexError
  | some w0 =>
    let shifted := fw.map (fun w => (w.x - w0.x, w.y - w0.y))
    match shifted[15]? with
    | none => .error .indexError
    | some p15 =>
      let angle := nm.atan2 p15.2 p15.1
      let c := nm.ncos angle
      let s := nm.nsin angle
      let rotated := shifted.map (fun p => (p.1 * c + p.2 * s, p.1 * (-s) + p.2 * c))
      let coeffs := nm.polyfit rotated
      match pose with
      | none => .error .attributeError
      | some cp =>
        let sx := cp.x - w0.x
        let sy := cp.y - w0.y
        .ok (polyval coeffs (sx * c + sy * s) - (sx * (-s) + sy * c))

/-- The `DBWNode` shared state read by one control-loop iteration. -/
structure DState where
  current_velocity : Option DTwist
  proposed_velocity : Option DTwist
  final_waypoints : Option (List DWaypoint)
  current_pose : Option DPose
  is_dbw_enabled : Bool

/-- The argument tuple handed to the external `Controller.control`
collaborator. -/
structure CtrlCall where
  target_lin : ℚ
  target_ang : ℚ
  current_lin : ℚ
  cte : ℚ
  dt : ℚ
  deriving DecidableEq, Repr

/-- A concrete `DBWNode` state in which velocity, target twist and a
16-entry window have arrived but no pose yet. -/
def dsPoseless : DState :=
  ⟨some ⟨0, 0⟩, some ⟨0, 0⟩, some (List.replicate 16 ⟨0, 0⟩), none, true⟩

/-- One iteration of `DBWNode.loop` (lines 112-139): the guard checks
`current_velocity`, `proposed_velocity` and `final_waypoints` — but not
`current_pose` — before computing the cross-track error and calling the
controller.  `some call` carries the controller-call tuple, `none` means
the iteration was skipped; `dt` is the elapsed time computed from ROS
clock reads. -/
def loopTick (nm : NumModel) (st : DState) (dt : ℚ) :
    Except PyExn (Option CtrlCall) :=
  match st.current_velocity, st.proposed_velocity, st.final_waypoints with
  | some cv, some pv, some fw =>
    match get_cross_track_error nm fw st.current_pose with
    | .error e => .error e
    | .ok cte => .ok (some ⟨pv.linx, pv.angz, cv.linx, cte, dt⟩)
  | _, _, _ => .ok none

/-! ## Helper lemmas about the waypoint store -/

lemma get_wpVel_eq_cellv (B : List Waypoint) (win : List Nat) (i : Nat) :
    get_wpVel B win i = cellv B (win.getD i 0) := rfl

lemma length_setVelAt (B : List Waypoint) (c : Nat) (vel : ℝ) :
    (setVelAt B c vel).length = B.length := by
  simp [setVelAt]

lemma cellv_setVelAt_same (B : List Waypoint) (c : Nat) (vel : ℝ)
    (h : c < B.length) : cellv (setVelAt B c vel) c = vel := by
  simp [cellv, setVelAt, List.getD_eq_getElem?_getD, List.getElem?_set_self h]

lemma cellv_setVelAt_ne (B : List Waypoint) (c : Nat) (vel : ℝ) (c' : Nat)
    (h : c' ≠ c) : cellv (setVelAt B c vel) c' = cellv B c' := by
  simp [cellv, setVelAt, List.getD_eq_getElem?_getD,
    List.getElem?_set_ne (Ne.symm h)]

lemma setVelAt_oor (B : List Waypoint) (c : Nat) (vel : ℝ)
    (h : B.length ≤ c) : setVelAt B c vel = B := by
  simp [setVelAt, List.set_eq_of_length_le h]

lemma cellv_oor (B : List Waypoint) (c : Nat) (h : B.length ≤ c) :
    cellv B c = 0 := by
  simp [cellv, List.getD_eq_getElem?_getD, List.getElem?_eq_none h, wp0]

lemma min_min_zero (x : ℝ) : min (min x 0) 0 = min x 0 := by
  rw [min_assoc, min_self]

lemma getD_range_lt {n i : Nat} (h : i < n) : (List.range n).getD i 0 = i := by
  rw [List.getD_eq_getElem?_getD,
    List.getElem?_eq_getElem (by simpa using h), List.getElem_range]
  rfl

/-! ## The write performed by one `deaccel` loop iteration with `vel = 0` -/

lemma cellv_writeIf_ne (B : List Waypoint) (win : List Nat) (idx : Nat)
    (x : ℝ) (c : Nat) (h : win.getD idx 0 ≠ c) :
    cellv (if x < get_wpVel B win idx then set_wpVel B win idx x else B) c
      = cellv B c := by
  split
  · exact cellv_setVelAt_ne _ _ _ _ (Ne.symm h)
  · rfl

lemma cellv_writeIf_le (B : List Waypoint) (win : List Nat) (idx : Nat)
    (x : ℝ) (g : Nat → ℝ) (h : ∀ c, cellv B c ≤ g c) :
    ∀ c, cellv (if x < get_wpVel B win idx then set_wpVel B win idx x else B) c
      ≤ g c := by
  intro c
  split
  next hlt =>
    by_cases hc : c = win.getD idx 0
    · subst hc
      by_cases hr : win.getD idx 0 < B.length
      · rw [set_wpVel, cellv_setVelAt_same _ _ _ hr]
        rw [get_wpVel_eq_cellv] at hlt
        exact le_trans hlt.le (h _)
      · rw [set_wpVel, setVelAt_oor _ _ _ (le_of_not_lt hr)]
        exact h _
    · rw [set_wpVel, cellv_setVelAt_ne _ _ _ _ hc]
      exact h _
  next => exact h _

lemma zeroWrite_target (B : List Waypoint) (win : List Nat) (idx : Nat) :
    cellv (if (0:ℝ) < get_wpVel B win idx then set_wpVel B win idx 0 else B)
      (win.getD idx 0) = min (cellv B (win.getD idx 0)) 0 := by
  by_cases h : (0:ℝ) < get_wpVel B win idx
  · rw [if_pos h, get_wpVel_eq_cellv] at *
    by_cases hr : win.getD idx 0 < B.length
    · rw [set_wpVel, cellv_setVelAt_same _ _ _ hr, min_eq_right h.le]
    · rw [cellv_oor _ _ (le_of_not_lt hr)] at h
      exact absurd h (lt_irrefl 0)
  · rw [if_neg h, get_wpVel_eq_cellv] at *
    rw [min_eq_left (le_of_not_lt h)]

lemma zeroWrite_other (B : List Waypoint) (win : List Nat) (idx c : Nat) :
    cellv (if (0:ℝ) < get_wpVel B win idx then set_wpVel B win idx 0 else B) c
        = cellv B c ∨
      cellv (if (0:ℝ) < get_wpVel B win idx then set_wpVel B win idx 0 else B) c
        = min (cellv B c) 0 := by
  by_cases hc : c = win.getD idx 0
  · subst hc
    exact Or.inr (zeroWrite_target B win idx)
  · by_cases h : (0:ℝ) < get_wpVel B win idx
    · rw [if_pos h, set_wpVel]
      exact Or.inl (cellv_setVelAt_ne _ _ _ _ hc)
    · rw [if_neg h]
      exact Or.inl rfl

/-- If the accumulated distance can never exceed the `self.stop_distance`
threshold during the remaining iterations, the loop's `vel` stays `0` and
every processed slot's referenced cell ends at `min current 0`; every other
cell is unchanged or also clamped to `min current 0`. -/
lemma foldl_deaccelStep_zero (cfg : DCfg) :
    ∀ (l : List Nat) (d : ℝ) (B : List Waypoint),
      (∀ j : Nat, 1 ≤ j → j ≤ l.countP (fun x => decide (x < cfg.S)) →
        d + (j : ℝ) * cfg.step ≤ cfg.sd) →
      (∀ c, cellv (l.foldl (deaccelStep cfg) (0, d, B)).2.2 c = cellv B c ∨
            cellv (l.foldl (deaccelStep cfg) (0, d, B)).2.2 c
              = min (cellv B c) 0) ∧
      ∀ i ∈ l, cellv (l.foldl (deaccelStep cfg) (0, d, B)).2.2
          (cfg.win.getD i 0) = min (cellv B (cfg.win.getD i 0)) 0 := by
  intro l
  induction l with
  | nil =>
    intro d B _
    exact ⟨fun c => Or.inl rfl, fun i hi => absurd hi (List.not_mem_nil i)⟩
  | cons idx rest ih =>
    intro d B hinc
    have hstep : deaccelStep cfg (0, d, B) idx =
        (0, (if idx < cfg.S then d + cfg.step else d),
          if (0:ℝ) < get_wpVel B cfg.win idx then set_wpVel B cfg.win idx 0
          else B) := by
      by_cases h : idx < cfg.S
      · have hcnt : 1 ≤ (idx :: rest).countP (fun x => decide (x < cfg.S)) := by
          rw [List.countP_cons_of_pos _ _ (by simpa using h)]
          omega
        have hle := hinc 1 le_rfl hcnt
        rw [Nat.cast_one, one_mul] at hle
        have hno : ¬ (d + cfg.step > cfg.sd) := not_lt_of_le hle
        simp only [deaccelStep, if_pos h, if_neg hno]
      · simp only [deaccelStep, if_neg h]
    rw [List.foldl_cons, hstep]
    have hinc' : ∀ j : Nat, 1 ≤ j →
        j ≤ rest.countP (fun x => decide (x < cfg.S)) →
        (if idx < cfg.S then d + cfg.step else d) + (j : ℝ) * cfg.step
          ≤ cfg.sd := by
      intro j hj1 hjr
      by_cases h : idx < cfg.S
      · rw [if_pos h]
        have := hinc (j + 1) (by omega)
          (by rw [List.countP_cons_of_pos _ _ (by simpa using h)]; omega)
        push_cast at this ⊢
        nlinarith [this]
      · rw [if_neg h]
        exact hinc j hj1
          (by rwa [List.countP_cons_of_neg _ _ (by simpa using h)] at hinc ⊢)
    obtain ⟨ihall, ihmem⟩ := ih (if idx < cfg.S then d + cfg.step else d)
      (if (0:ℝ) < get_wpVel B cfg.win idx then set_wpVel B cfg.win idx 0 else B)
      hinc'
    constructor
    · intro c
      rcases ihall c with h1 | h1 <;> rcases zeroWrite_other B cfg.win idx c with h2 | h2
      · exact Or.inl (h1.trans h2)
      · exact Or.inr (h1.trans h2)
      · exact Or.inr (by rw [h1, h2])
      · exact Or.inr (by rw [h1, h2, min_min_zero])
    · intro i hi
      rcases List.mem_cons.mp hi with hi | hi
      · subst hi
        rcases ihall (cfg.win.getD i 0) with h1 | h1


        · rw [h1, zeroWrite_target]
        · rw [h1, zeroWrite_target, min_min_zero]
      · rw [ihmem i hi]
        rcases zeroWrite_other B cfg.win idx (cfg.win.getD i 0) with h2 | h2
        · rw [h2]
        · rw [h2, min_min_zero]

/-- Cells not referenced by any remaining loop index are untouched by the
`deaccel` loop. -/
lemma foldl_deaccelStep_frame (cfg : DCfg) (c : Nat) :
    ∀ (l : List Nat) (s : ℝ × ℝ × List Waypoint),
      (∀ i ∈ l, cfg.win.getD i 0 ≠ c) →
      cellv (l.foldl (deaccelStep cfg) s).2.2 c = cellv s.2.2 c := by
  intro l
  induction l with
  | nil => intro s _; rfl
  | cons idx rest ih =>
    intro s hne
    rw [List.foldl_cons, ih _ (fun i hi => hne i (List.mem_cons_of_mem _ hi))]
    show cellv (deaccelStep cfg s idx).2.2 c = cellv s.2.2 c
    simp only [deaccelStep]
    exact cellv_writeIf_ne _ _ _ _ _ (hne idx (List.mem_cons_self _ _))

/-! ## `deaccel` and `restore_velocities` never raise a velocity above a
pointwise bound (claim C6 machinery) -/

lemma deaccelStep_le (cfg : DCfg) (g : Nat → ℝ) (s : ℝ × ℝ × List Waypoint)
    (idx : Nat) (h : ∀ c, cellv s.2.2 c ≤ g c) :
    ∀ c, cellv (deaccelStep cfg s idx).2.2 c ≤ g c := by
  intro c
  simp only [deaccelStep]
  exact cellv_writeIf_le _ _ _ _ g h c

lemma foldl_deaccelStep_le (cfg : DCfg) (g : Nat → ℝ) :
    ∀ (l : List Nat) (s : ℝ × ℝ × List Waypoint),
      (∀ c, cellv s.2.2 c ≤ g c) →
      ∀ c, cellv (l.foldl (deaccelStep cfg) s).2.2 c ≤ g c := by
  intro l
  induction l with
  | nil => intro s h c; exact h c
  | cons idx rest ih =>
    intro s h c
    rw [List.foldl_cons]
    exact ih _ (fun c' => by
      have := deaccelStep_le cfg g s idx h c'
      exact this) c

lemma deaccel_le (sd a : ℝ) (B : List Waypoint) (win : List Nat)
    (S : Nat) (D : ℝ) (g : Nat → ℝ) (h : ∀ c, cellv B c ≤ g c) :
    ∀ c, cellv (deaccel sd a B win S D) c ≤ g c := by
  intro c
  rw [deaccel]
  split
  · exact h c
  · exact foldl_deaccelStep_le _ g _ (0, 0, B) h c

lemma restore_velocities_cases (orig : List ℝ) :
    ∀ (idxs : List Nat) (B : List Waypoint) (c : Nat),
      cellv (restore_velocities B orig idxs) c = cellv B c ∨
      cellv (restore_velocities B orig idxs) c = orig.getD c 0 := by
  intro idxs
  induction idxs with
  | nil => intro B c; exact Or.inl rfl
  | cons i rest ih =>
    intro B c
    show cellv (restore_velocities (setVelAt B i (orig.getD i 0)) orig rest) c
          = cellv B c ∨
        cellv (restore_velocities (setVelAt B i (orig.getD i 0)) orig rest) c
          = orig.getD c 0
    rcases ih (setVelAt B i (orig.getD i 0)) c with h | h
    · by_cases hc : c = i
      · subst hc
        by_cases hr : c < B.length
        · exact Or.inr (by rw [h, cellv_setVelAt_same _ _ _ hr])
        · exact Or.inl (by rw [h, setVelAt_oor _ _ _ (le_of_not_lt hr)])
      · exact Or.inl (by rw [h, cellv_setVelAt_ne _ _ _ _ hc])
    · exact Or.inr h

lemma getD_map_v (wps : List Waypoint) (c : Nat) :
    (wps.map (fun w => w.v)).getD c 0 = cellv wps c := by
  rw [cellv, List.getD_eq_getElem?_getD, List.getD_eq_getElem?_getD,
    List.getElem?_map]
  cases h : wps[c]? <;> simp [wp0]

lemma runOps_inv (sd a : ℝ) :
    ∀ (ops : List ProfOp) (st : PState),
      (∀ c, cellv st.base c ≤ st.orig.getD c 0) →
      (runOps sd a st ops).orig = st.orig ∧
      ∀ c, cellv (runOps sd a st ops).base c ≤ st.orig.getD c 0 := by
  intro ops
  induction ops with
  | nil => intro st h; exact ⟨rfl, h⟩
  | cons op rest ih =>
    intro st h
    show (runOps sd a (applyOp sd a st op) rest).orig = st.orig ∧ _
    have hop : (applyOp sd a st op).orig = st.orig ∧
        ∀ c, cellv (applyOp sd a st op).base c ≤ st.orig.getD c 0 := by
      cases op with
      | restoreOp idxs =>
        refine ⟨rfl, fun c => ?_⟩
        rcases restore_velocities_cases st.orig idxs st.base c with hr | hr
        · rw [applyOp]; rw [hr]; exact h c
        · rw [applyOp]; rw [hr]
      | deaccelOp win S D =>
        exact ⟨rfl, deaccel_le sd a st.base win S D _ h⟩
    obtain ⟨h1, h2⟩ := ih (applyOp sd a st op) (by rw [hop.1]; exact hop.2)
    exact ⟨by rw [h1, hop.1], fun c => by rw [← hop.1]; exact h2 c⟩

/-- C6: at all times after path load, every waypoint's current velocity is
at most the baseline recorded at load: the load snapshot makes them equal,
`restore_velocities` resets cells exactly to baseline, and every `deaccel`
write only lowers a velocity (it writes only when the new value is
strictly below the current one), for any sequence of restore/deaccel
operations, i.e. for every combination of the two stop triggers. -/
theorem current_velocity_le_baseline (sd a : ℝ) (wps : List Waypoint)
    (ops : List ProfOp) (c : Nat) :
    cellv (runOps sd a (loadState wps) ops).base c
      ≤ (loadState wps).orig.getD c 0 := by
  exact (runOps_inv sd a ops (loadState wps)
    (fun c' => le_of_eq (getD_map_v wps c').symm)).2 c

/-! ## Claim C1: behaviour of `deaccel` at and beyond the stop index -/

lemma deaccel_core_min_zero (cfg : DCfg) (B : List Waypoint) (i : Nat)
    (hwin : cfg.win = List.range B.length)
    (hSi : cfg.S ≤ i) (hiB : i < B.length) :
    cellv (((List.range cfg.win.length).reverse).foldl (deaccelStep cfg)
      (0, 0, B)).2.2 i = min (cellv B i) 0 := by
  have hSn : cfg.S ≤ B.length := le_trans hSi (Nat.le_of_lt hiB)
  have hsplit : List.range B.length =
      List.range' 0 cfg.S ++ List.range' cfg.S (B.length - cfg.S) := by
    calc List.range B.length
        = List.range' 0 B.length := List.range_eq_range' _
      _ = List.range' 0 (cfg.S + (B.length - cfg.S)) := by
          rw [Nat.add_sub_cancel' hSn]
      _ = List.range' 0 cfg.S ++ List.range' (0 + cfg.S) (B.length - cfg.S) := by
          rw [List.range'_append_1]
          rw [Nat.add_comm]
      _ = List.range' 0 cfg.S ++ List.range' cfg.S (B.length - cfg.S) := by
          rw [Nat.zero_add]
  rw [hwin, List.length_range, hsplit, List.reverse_append, List.foldl_append]
  rw [foldl_deaccelStep_frame cfg i ((List.range' 0 cfg.S).reverse) _
    (by
      intro x hx
      have hxS : x < cfg.S := by
        have := List.mem_range'_1.mp (List.mem_reverse.mp hx)
        omega
      rw [hwin, getD_range_lt (lt_of_lt_of_le hxS hSn)]
      omega)]
  have hcnt : ((List.range' cfg.S (B.length - cfg.S)).reverse).countP
      (fun x => decide (x < cfg.S)) = 0 := by
    rw [List.countP_eq_zero]
    intro x hx
    have := List.mem_range'_1.mp (List.mem_reverse.mp hx)
    simpa using by omega
  have h0 := foldl_deaccelStep_zero cfg
    ((List.range' cfg.S (B.length - cfg.S)).reverse) 0 B
    (by
      intro j hj1 hj2
      rw [hcnt] at hj2
      exact absurd hj2 (by omega))
  have hmem : i ∈ (List.range' cfg.S (B.length - cfg.S)).reverse := by
    rw [List.mem_reverse, List.mem_range'_1]
    omega
  have := h0.2 i hmem
  rwa [hwin, getD_range_lt hiB] at this

/-- C1 (amended): for a stop trigger at window offset `S > 0`, `deaccel`
does not leave waypoints at window index `i ≥ S` untouched: it clamps each
of them to `min current 0`, i.e. it zeroes every such waypoint whose
velocity was positive (the loop's `vel` starts at `0` and the write
`vel < current` applies to every index).  Stated for a window that is its
own reference list (`deaccel` called on a plain waypoint list). -/
theorem deaccel_min_zero_at_or_beyond_stop (sd D a : ℝ) (B : List Waypoint)
    (S i : Nat) (hS : 0 < S) (hSi : S ≤ i) (hiB : i < B.length) :
    cellv (deaccel sd a B (List.range B.length) S D) i = min (cellv B i) 0 := by
  rw [deaccel.eq_def, if_neg (Nat.pos_iff_ne_zero.mp hS)]
  exact deaccel_core_min_zero
    ⟨S, D, sd, a,
      wdistance B (List.range B.length) 0 S / (S : ℝ), List.range B.length⟩
    B i rfl hSi hiB

/-- Closed witness for `deaccel_min_zero_at_or_beyond_stop` at the spec's
§8 scenario inputs (stop index 2, waypoint 3). -/
theorem deaccel_min_zero_at_or_beyond_stop_witness :
    0 < 2 ∧ 2 ≤ 3 ∧ 3 < pathA.length ∧
    cellv (deaccel 1 (-2) pathA (List.range pathA.length) 2 1) 3
      = min (cellv pathA 3) 0 :=
  ⟨by omega, by omega, by simp [pathA],
    deaccel_min_zero_at_or_beyond_stop 1 1 (-2) pathA 2 3 (by omega) (by omega)
      (by simp [pathA])⟩

/-- C1 (counterexample to the claim as stated): in the spec's 4-waypoint
scenario (stop index 2, standoff 1.0, deceleration magnitude 2.0,
baselines 5.0) the source's `deaccel` sets waypoint 3's velocity to 0.0 —
it does not keep velocity 5.0, so waypoints with window index `≥ S` are
not left unchanged. -/
theorem deaccel_scenario_zeroes_wp3 :
    cellv (deaccel 1 (-2) pathA (List.range 4) 2 1) 3 = 0 ∧
    cellv (deaccel 1 (-2) pathA (List.range 4) 2 1) 3 ≠ 5 := by
  have h4 : Real.sqrt 4 = 2 := by
    rw [show (4:ℝ) = 2 ^ 2 by norm_num, Real.sqrt_sq (by norm_num : (0:ℝ) ≤ 2)]
  have hw : wdistance pathA (List.range 4) 0 2 = 2 := by
    simp only [wdistance, show List.range 4 = [0,1,2,3] from rfl,
      show (2+1-0 : Nat) = 3 from rfl, show List.range' 0 3 = [0,1,2] from rfl,
      List.foldl_cons, List.foldl_nil]
    norm_num [dl, pathA, wp0, Real.sqrt_one, Real.sqrt_zero]
  have h0 : cellv (deaccel 1 (-2) pathA (List.range 4) 2 1) 3 = 0 := by
    simp only [cellv, deaccel, hw,
      show List.range (List.range 4).length = [0,1,2,3] from rfl,
      List.reverse_cons, List.reverse_nil, List.nil_append, List.cons_append,
      List.foldl_cons, List.foldl_nil]
    norm_num [deaccelStep, get_wpVel, set_wpVel, setVelAt, pathA, wp0, h4,
      Real.sqrt_one, Real.sqrt_zero]
  exact ⟨h0, by rw [h0]; norm_num⟩

/-! ## Claim C3: the profile formula and the standoff threshold -/

/-- C3 (code bug): for the end-of-path trigger `deaccel(waypoints,
last_wp_idx, 0)` the claim's profile `sqrt(2·|a|·(d − D))` with the passed
standoff `D = 0` should give a positive velocity at distance `d = 2` from
the stop line, but the source compares `d` against `self.stop_distance`
(here 5.0) instead of the passed `stop_distance`, so the waypoint gets
velocity 0.  Evaluated on four waypoints spaced 2.0 apart with stop index
3 and baselines 10. -/
theorem deaccel_end_of_path_threshold_uses_attr :
    cellv (deaccel 5 (-2) pathB (List.range 4) 3 0) 2 = 0 ∧
    0 < Real.sqrt (2 * |(-2 : ℝ)| * (2 - 0)) := by
  have h4 : Real.sqrt 4 = 2 := by
    rw [show (4:ℝ) = 2 ^ 2 by norm_num, Real.sqrt_sq (by norm_num : (0:ℝ) ≤ 2)]
  have h24 : Real.sqrt 24 < 10 := by
    have h100 : Real.sqrt 100 = 10 := by
      rw [show (100:ℝ) = 10 ^ 2 by norm_num,
        Real.sqrt_sq (by norm_num : (0:ℝ) ≤ 10)]
    calc Real.sqrt 24 < Real.sqrt 100 :=
          Real.sqrt_lt_sqrt (by norm_num) (by norm_num)
      _ = 10 := h100
  have hw : wdistance pathB (List.range 4) 0 3 = 6 := by
    simp only [wdistance, show List.range 4 = [0,1,2,3] from rfl,
      show (3+1-0 : Nat) = 4 from rfl,
      show List.range' 0 4 = [0,1,2,3] from rfl,
      List.foldl_cons, List.foldl_nil]
    norm_num [dl, pathB, wp0, Real.sqrt_zero, h4]
  constructor
  · simp only [cellv, deaccel, hw,
      show List.range (List.range 4).length = [0,1,2,3] from rfl,
      List.reverse_cons, List.reverse_nil, List.nil_append, List.cons_append,
      List.foldl_cons, List.foldl_nil]
    norm_num [deaccelStep, get_wpVel, set_wpVel, setVelAt, pathB, wp0, h24]
  · rw [Real.sqrt_pos]
    norm_num

/-! ## Claim C7: the exhaustive localizer scan -/

/-- Loop invariant of the `next_wpUpdate` scan in full-search mode
(`full_search = True`, offset 0): walking indices `k, k+1, …, n-1` with
running state `(dist, wp)` that already summarises indices below `k`,
the final result is either `none` with every waypoint at distance
`≥ 1000000`, or the first global argmin index. -/
lemma wpScan_full_char (cx cy : ℝ) (B : List Waypoint) (n : Nat)
    (hn : n = B.length) :
    ∀ (m k : Nat), k + m = n →
    ∀ (dist : ℝ) (wp : Option Nat),
    ((wp = none ∧ dist = 1000000 ∧
        ∀ t, t < k → 1000000 ≤ planarDist cx cy (B.getD t wp0)) ∨
     (∃ j, wp = some j ∧ j < k ∧
        planarDist cx cy (B.getD j wp0) = dist ∧ dist < 1000000 ∧
        (∀ t, t < k → dist ≤ planarDist cx cy (B.getD t wp0)) ∧
        (∀ t, t < j → dist < planarDist cx cy (B.getD t wp0)))) →
    ((wpScan cx cy B 0 n (List.range' k m) dist wp true = none ∧
        ∀ t, t < n → 1000000 ≤ planarDist cx cy (B.getD t wp0)) ∨
     (∃ j, wpScan cx cy B 0 n (List.range' k m) dist wp true = some j ∧
        j < n ∧
        (∀ t, t < n →
          planarDist cx cy (B.getD j wp0) ≤ planarDist cx cy (B.getD t wp0)) ∧
        (∀ t, t < j →
          planarDist cx cy (B.getD j wp0) < planarDist cx cy (B.getD t wp0)))) := by
  intro m
  induction m with
  | zero =>
    intro k hk dist wp hinv
    rcases hinv with ⟨hwp, _, hall⟩ | ⟨j, hwp, hjk, hdj, _, hall, hfirst⟩
    · subst hwp
      exact Or.inl ⟨rfl, fun t ht => hall t (by omega)⟩
    · subst hwp
      refine Or.inr ⟨j, rfl, by omega, fun t ht => ?_, fun t ht => ?_⟩
      · rw [hdj]; exact hall t (by omega)
      · rw [hdj]; exact hfirst t ht
  | succ m ih =>
    intro k hk dist wp hinv
    have hkn : k < n := by omega
    have hk0 : (k + 0) % n = k := by
      rw [Nat.add_zero]; exact Nat.mod_eq_of_lt hkn
    rw [List.range'_succ]
    simp only [wpScan, hk0]
    have hdistle : dist ≤ 1000000 := by
      rcases hinv with ⟨_, hd, _⟩ | ⟨j, _, _, _, hd, _, _⟩
      · rw [hd]
      · exact hd.le
    by_cases hlt : planarDist cx cy (B.getD k wp0) < dist
    · rw [if_pos hlt]
      refine ih (k + 1) (by omega) _ _ (Or.inr ⟨k, rfl, by omega, rfl,
        lt_of_lt_of_le hlt hdistle, fun t ht => ?_, fun t ht => ?_⟩)
      · rcases Nat.lt_succ_iff_lt_or_eq.mp ht with ht | ht
        · calc planarDist cx cy (B.getD k wp0) ≤ dist := hlt.le
            _ ≤ planarDist cx cy (B.getD t wp0) := by
              rcases hinv with ⟨_, hd, hall⟩ | ⟨j, _, _, _, _, hall, _⟩
              · rw [hd]; exact hall t ht
              · exact hall t ht
        · subst ht; exact le_rfl
      · calc planarDist cx cy (B.getD k wp0) < dist := hlt
          _ ≤ planarDist cx cy (B.getD t wp0) := by
            rcases hinv with ⟨_, hd, hall⟩ | ⟨j, _, _, _, _, hall, _⟩
            · rw [hd]; exact hall t (by omega)
            · exact hall t (by omega)
    · rw [if_neg hlt, if_pos trivial]
      refine ih (k + 1) (by omega) dist wp ?_
      rcases hinv with ⟨hwp, hd, hall⟩ | ⟨j, hwp, hjk, hdj, hdlt, hall, hfirst⟩
      · refine Or.inl ⟨hwp, hd, fun t ht => ?_⟩
        rcases Nat.lt_succ_iff_lt_or_eq.mp ht with ht | ht
        · exact hall t ht
        · subst ht; rw [← hd]; exact le_of_not_lt hlt
      · refine Or.inr ⟨j, hwp, by omega, hdj, hdlt, fun t ht => ?_, hfirst⟩
        rcases Nat.lt_succ_iff_lt_or_eq.mp ht with ht | ht
        · exact hall t ht
        · subst ht; exact le_of_not_lt hlt

/-- C7 (amended): with no previous index and a known position, the
localizer returns the first global-argmin index of the planar distance —
provided some waypoint is strictly closer than the scan's initial
sentinel distance 1000000.  (If every waypoint is at distance ≥ 1000000
the scan reports not-found; see the counterexample.) -/
theorem next_wpUpdate_full_scan_first_argmin (cx cy : ℝ) (B : List Waypoint)
    (hne : B ≠ [])
    (hnear : ∃ t, t < B.length ∧ planarDist cx cy (B.getD t wp0) < 1000000) :
    ∃ j, j < B.length ∧ next_wpUpdate B (some (cx, cy)) none = some j ∧
      (∀ t, t < B.length →
        planarDist cx cy (B.getD j wp0) ≤ planarDist cx cy (B.getD t wp0)) ∧
      (∀ t, t < j →
        planarDist cx cy (B.getD j wp0) < planarDist cx cy (B.getD t wp0)) := by
  have hscan := wpScan_full_char cx cy B B.length rfl B.length 0 (by omega)
    1000000 none (Or.inl ⟨rfl, rfl, fun t ht => absurd ht (by omega)⟩)
  have hrw : next_wpUpdate B (some (cx, cy)) none =
      wpScan cx cy B 0 B.length (List.range' 0 B.length) 1000000 none true := by
    rw [next_wpUpdate, if_neg (by simp [hne]), List.range_eq_range']
  rcases hscan with ⟨hnone, hall⟩ | ⟨j, hj, hjn, hmin, hfirst⟩
  · obtain ⟨t, ht, hlt⟩ := hnear
    exact absurd hlt (not_lt_of_le (hall t ht))
  · exact ⟨j, hjn, by rw [hrw]; exact hj, hmin, hfirst⟩

/-- Closed witness for `next_wpUpdate_full_scan_first_argmin` on a
two-waypoint path with the car at the origin. -/
theorem next_wpUpdate_full_scan_first_argmin_witness :
    ∃ j, j < path2.length ∧ next_wpUpdate path2 (some (0, 0)) none = some j ∧
      (∀ t, t < path2.length →
        planarDist 0 0 (path2.getD j wp0) ≤ planarDist 0 0 (path2.getD t wp0)) ∧
      (∀ t, t < j →
        planarDist 0 0 (path2.getD j wp0) < planarDist 0 0 (path2.getD t wp0)) :=
  next_wpUpdate_full_scan_first_argmin 0 0 path2 (by simp [path2])
    ⟨0, by simp [path2], by
      norm_num [planarDist, path2, wp0, Real.sqrt_zero]⟩

/-- C7 (counterexample to the claim as stated): for a non-empty path whose
only waypoint is exactly 1000000 units away, the localizer returns
not-found (`None`) instead of the global-nearest index 0, because the
scan's initial `dist` sentinel is 1000000 and only strict improvements are
kept. -/
theorem next_wpUpdate_far_waypoint_not_found :
    next_wpUpdate farPath (some (0, 0)) none = none := by
  have hD : planarDist 0 0 (farPath.getD 0 wp0) = 1000000 := by
    simp only [planarDist, farPath, wp0, List.getD_cons_zero]
    rw [show ((0:ℝ) - 1000000) ^ 2 + ((0:ℝ) - 0) ^ 2 = 1000000 ^ 2 by norm_num]
    exact Real.sqrt_sq (by norm_num)
  rw [next_wpUpdate, if_neg (by simp [farPath])]
  simp only [show farPath.length = 1 from rfl,
    show List.range 1 = [0] from rfl]
  simp only [wpScan, show (0 + 0) % 1 = 0 from rfl, hD]
  rw [if_neg (lt_irrefl 1000000), if_pos trivial]

/-! ## Claim C8: window size and indexing -/

/-- C8: on a path of length `L > 0` the window index list has exactly
`LOOKAHEAD_WPS = 100` entries, entry `k`'s absolute index is
`(start + k) % L`, and entry `k` of the built window is the base waypoint
at that absolute index. -/
theorem window_size_and_indexing (B : List Waypoint) (start L k : Nat)
    (hL : 0 < L) (hk : k < LOOKAHEAD_WPS) :
    (windowIdx start L).length = LOOKAHEAD_WPS ∧
    (windowIdx start L).getD k 0 = (start + k) % L ∧
    (finalWindow B (windowIdx start L)).getD k wp0
      = B.getD ((start + k) % L) wp0 := by
  have hlen : (windowIdx start L).length = LOOKAHEAD_WPS := by
    simp [windowIdx]
  have hkk : k < (windowIdx start L).length := by rw [hlen]; exact hk
  have hidx : (windowIdx start L).getD k 0 = (start + k) % L := by
    rw [List.getD_eq_getElem?_getD, List.getElem?_eq_getElem hkk]
    simp [windowIdx]
  refine ⟨hlen, hidx, ?_⟩
  rw [finalWindow, List.getD_eq_getElem?_getD, List.getElem?_map,
    List.getElem?_eq_getElem hkk]
  simp only [Option.map_some', Option.getD_some]
  congr 1
  rw [← hidx, List.getD_eq_getElem?_getD, List.getElem?_eq_getElem hkk]
  rfl

/-- Closed witness for `window_size_and_indexing` on the scenario path
(`L = 4`, `start = 2`, `k = 5`). -/
theorem window_size_and_indexing_witness :
    (windowIdx 2 4).length = LOOKAHEAD_WPS ∧
    (windowIdx 2 4).getD 5 0 = (2 + 5) % 4 ∧
    (finalWindow pathA (windowIdx 2 4)).getD 5 wp0
      = pathA.getD ((2 + 5) % 4) wp0 :=
  window_size_and_indexing pathA 2 4 5 (by omega)
    (by rw [LOOKAHEAD_WPS]; omega)

/-! ## Claims C9 and C10: the base-path callback -/

/-- C9: when a replacement path arrives while an index is tracked and the
waypoint at that index moved more than the 0.5 continuity threshold, the
callback completes normally (no exception) with the previous index reset
to unknown and the new path and baseline snapshot installed. -/
theorem waypoints_cb_discontinuity_resets (st : UpdState)
    (new : List Waypoint) (i : Nat)
    (hnext : st.next = some i) (hbase : st.base ≠ [])
    (hiold : i < st.base.length) (hinew : i < new.length)
    (hfar : 0.5 < dl (st.base.getD i wp0) (new.getD i wp0)) :
    waypoints_cb st new =
      .ok { st with
        base := new
        orig := new.map (fun w => w.v)
        next := none } := by
  unfold waypoints_cb
  rw [if_pos ⟨by simp [hbase], by rw [hnext]; rfl⟩, hnext]
  simp only [Option.getD_some]
  rw [List.getElem?_eq_getElem hiold, List.getElem?_eq_getElem hinew]
  rw [List.getD_eq_getElem st.base wp0 hiold,
    List.getD_eq_getElem new wp0 hinew] at hfar
  have hnot : ¬ sameWP st.base[i] new[i] :=
    fun hcon => absurd hcon (not_lt_of_gt hfar)
  simp only [hnot, if_false]

/-- Closed witness for `waypoints_cb_discontinuity_resets`: the tracked
waypoint moved 2.0 units. -/
theorem waypoints_cb_discontinuity_resets_witness :
    waypoints_cb stDisc newDisc =
      .ok { stDisc with
        base := newDisc
        orig := newDisc.map (fun w => w.v)
        next := none } :=
  waypoints_cb_discontinuity_resets stDisc newDisc 0 rfl
    (by simp [stDisc]) (by simp [stDisc]) (by simp [newDisc])
    (by
      have h4 : Real.sqrt 4 = 2 := by
        rw [show (4:ℝ) = 2 ^ 2 by norm_num,
          Real.sqrt_sq (by norm_num : (0:ℝ) ≤ 2)]
      norm_num [dl, stDisc, newDisc, wp0, h4])

/-- C10: when the replacement path is no longer than the tracked index,
the callback indexes the new list out of range and raises an uncaught
`IndexError` instead of completing the continuity check. -/
theorem waypoints_cb_short_path_index_error (st : UpdState)
    (new : List Waypoint) (i : Nat)
    (hnext : st.next = some i) (hbase : st.base ≠ [])
    (hiold : i < st.base.length) (hshort : new.length ≤ i) :
    waypoints_cb st new = .error .indexError := by
  unfold waypoints_cb
  rw [if_pos ⟨by simp [hbase], by rw [hnext]; rfl⟩, hnext]
  simp only [Option.getD_some]
  rw [List.getElem?_eq_getElem hiold, List.getElem?_eq_none hshort]

/-- Closed witness for `waypoints_cb_short_path_index_error`: an empty
replacement path while index 0 is tracked. -/
theorem waypoints_cb_short_path_index_error_witness :
    waypoints_cb stDisc [] = .error .indexError :=
  waypoints_cb_short_path_index_error stDisc [] 0 rfl
    (by simp [stDisc]) (by simp [stDisc]) (by simp)

/-! ## Claims C4 and C5: the control tick and the cross-track estimator -/

/-- C5: for every window with fewer than 16 entries the cross-track
computation raises an uncaught `IndexError` (at `final_waypoints[0]` when
empty, at `shifted_matrix[15]` otherwise) — it has no ill-conditioned-fit
failure result at all. -/
theorem cross_track_error_index_error_small_window (nm : NumModel)
    (fw : List DWaypoint) (pose : Option DPose) (hfw : fw.length < 16) :
    get_cross_track_error nm fw pose = .error .indexError := by
  cases fw with
  | nil => rfl
  | cons w rest =>
    have hlen : ((w :: rest).map
        (fun v => (v.x - w.x, v.y - w.y))).length ≤ 15 := by
      simp only [List.length_map]
      omega
    unfold get_cross_track_error
    rw [List.getElem?_cons_zero]
    simp only [List.getElem?_eq_none hlen]

/-- Closed witness for `cross_track_error_index_error_small_window` on an
empty window. -/
theorem cross_track_error_index_error_small_window_witness :
    get_cross_track_error nmZero [] none = .error .indexError :=
  cross_track_error_index_error_small_window nmZero [] none (by simp)

/-- C4 (code bug): the control tick's guard does not check the pose: with
velocity, target twist and a 16-entry window available but the pose still
absent, the tick is not skipped — it calls the cross-track computation,
which dereferences the `None` pose and raises an uncaught
`AttributeError` that aborts the loop. -/
theorem loopTick_crashes_on_missing_pose (nm : NumModel) (cv pv : DTwist)
    (fw : List DWaypoint) (en : Bool) (dt : ℚ) (hfw : 16 ≤ fw.length) :
    loopTick nm ⟨some cv, some pv, some fw, none, en⟩ dt
      = .error .attributeError := by
  cases fw with
  | nil => simp at hfw
  | cons w rest =>
    have h15 : 15 < ((w :: rest).map
        (fun v => (v.x - w.x, v.y - w.y))).length := by
      simp only [List.length_map, List.length_cons]
      simp only [List.length_cons] at hfw
      omega
    have hg : get_cross_track_error nm (w :: rest) none
        = .error .attributeError := by
      unfold get_cross_track_error
      rw [List.getElem?_cons_zero]
      simp only [List.getElem?_eq_getElem h15]
    simp only [loopTick]
    rw [hg]

/-- Closed witness for `loopTick_crashes_on_missing_pose` on the concrete
poseless state. -/
theorem loopTick_crashes_on_missing_pose_witness :
    loopTick nmZero dsPoseless 0 = .error .attributeError :=
  loopTick_crashes_on_missing_pose nmZero ⟨0, 0⟩ ⟨0, 0⟩
    (List.replicate 16 ⟨0, 0⟩) true 0 (by simp)

/-! ## Claim C2: baseline restoration and the lookahead window -/

lemma restore_velocities_frame (orig : List ℝ) :
    ∀ (idxs : List Nat) (B : List Waypoint) (j : Nat), j ∉ idxs →
      cellv (restore_velocities B orig idxs) j = cellv B j := by
  intro idxs
  induction idxs with
  | nil => intro B j _; rfl
  | cons i rest ih =>
    intro B j hj
    show cellv (restore_velocities (setVelAt B i (orig.getD i 0)) orig rest) j
      = cellv B j
    rw [ih _ _ (fun h => hj (List.mem_cons_of_mem _ h)),
      cellv_setVelAt_ne _ _ _ _
        (fun h => hj (by rw [h]; exact List.mem_cons_self _ _))]

/-- C2 (amended): `restore_velocities` does set every targeted in-range
cell's velocity exactly back to the recorded baseline — but in
`updatePublish` this call is made only under `if self.stop_on_red:`
(line 112-113), and the window entries alias the stored path waypoints
rather than being independent copies; with `stop_on_red` disabled a
previously profiled velocity is carried forward (see the
counterexample). -/
theorem restore_velocities_sets_baseline (B : List Waypoint) (orig : List ℝ)
    (idxs : List Nat) (j : Nat) (hj : j ∈ idxs) (hjB : j < B.length) :
    cellv (restore_velocities B orig idxs) j = orig.getD j 0 := by
  induction idxs generalizing B with
  | nil => exact absurd hj (List.not_mem_nil j)
  | cons i rest ih =>
    show cellv (restore_velocities (setVelAt B i (orig.getD i 0)) orig rest) j
      = orig.getD j 0
    by_cases hr : j ∈ rest
    · exact ih _ hr (by rw [length_setVelAt]; exact hjB)
    · have hji : j = i := by
        rcases List.mem_cons.mp hj with h | h
        · exact h
        · exact absurd h hr
      subst hji
      rw [restore_velocities_frame _ _ _ _ hr, cellv_setVelAt_same _ _ _ hjB]

/-- Closed witness for `restore_velocities_sets_baseline`: restoring index
2 of the scenario path from the snapshot `[9,9,9,9]`. -/
theorem restore_velocities_sets_baseline_witness :
    cellv (restore_velocities pathA [9, 9, 9, 9] [2]) 2
      = ([9, 9, 9, 9] : List ℝ).getD 2 0 :=
  restore_velocities_sets_baseline pathA [9, 9, 9, 9] [2] 2
    (List.mem_cons_self 2 []) (by simp [pathA])

lemma length_writeIf (B : List Waypoint) (win : List Nat) (idx : Nat)
    (x : ℝ) :
    (if x < get_wpVel B win idx then set_wpVel B win idx x else B).length
      = B.length := by
  split
  · exact length_setVelAt _ _ _
  · rfl

lemma length_foldl_deaccelStep (cfg : DCfg) :
    ∀ (l : List Nat) (s : ℝ × ℝ × List Waypoint),
      (l.foldl (deaccelStep cfg) s).2.2.length = s.2.2.length := by
  intro l
  induction l with
  | nil => intro s; rfl
  | cons idx rest ih =>
    intro s
    rw [List.foldl_cons, ih]
    show (deaccelStep cfg s idx).2.2.length = s.2.2.length
    simp only [deaccelStep]
    exact length_writeIf _ _ _ _

lemma nonv_setVelAt (B : List Waypoint) (c : Nat) (vel : ℝ) (c' : Nat) :
    ((setVelAt B c vel).getD c' wp0).px = (B.getD c' wp0).px ∧
    ((setVelAt B c vel).getD c' wp0).py = (B.getD c' wp0).py ∧
    ((setVelAt B c vel).getD c' wp0).pz = (B.getD c' wp0).pz := by
  by_cases hc : c' = c
  · subst hc
    by_cases hr : c' < B.length
    · simp [setVelAt, List.getD_eq_getElem?_getD, List.getElem?_set_self hr]
    · rw [setVelAt_oor _ _ _ (le_of_not_lt hr)]
      exact ⟨rfl, rfl, rfl⟩
  · simp [setVelAt, List.getD_eq_getElem?_getD, List.getElem?_set_ne (Ne.symm hc)]

lemma nonv_writeIf (B : List Waypoint) (win : List Nat) (idx : Nat)
    (x : ℝ) (c : Nat) :
    (((if x < get_wpVel B win idx then set_wpVel B win idx x else B)).getD c
        wp0).px = (B.getD c wp0).px ∧
    (((if x < get_wpVel B win idx then set_wpVel B win idx x else B)).getD c
        wp0).py = (B.getD c wp0).py ∧
    (((if x < get_wpVel B win idx then set_wpVel B win idx x else B)).getD c
        wp0).pz = (B.getD c wp0).pz := by
  split
  · exact nonv_setVelAt _ _ _ _
  · exact ⟨rfl, rfl, rfl⟩

lemma nonv_foldl_deaccelStep (cfg : DCfg) :
    ∀ (l : List Nat) (s : ℝ × ℝ × List Waypoint) (c : Nat),
      ((l.foldl (deaccelStep cfg) s).2.2.getD c wp0).px = (s.2.2.getD c wp0).px ∧
      ((l.foldl (deaccelStep cfg) s).2.2.getD c wp0).py = (s.2.2.getD c wp0).py ∧
      ((l.foldl (deaccelStep cfg) s).2.2.getD c wp0).pz = (s.2.2.getD c wp0).pz := by
  intro l
  induction l with
  | nil => intro s c; exact ⟨rfl, rfl, rfl⟩
  | cons idx rest ih =>
    intro s c
    rw [List.foldl_cons]
    obtain ⟨h1, h2, h3⟩ := ih (deaccelStep cfg s idx) c
    rw [h1, h2, h3]
    show ((deaccelStep cfg s idx).2.2.getD c wp0).px = _ ∧ _ ∧ _
    simp only [deaccelStep]
    exact nonv_writeIf _ _ _ _ _

/-! ## Claim C2 counterexample: a profiled velocity is carried into a
later window that the stop trigger cannot re-zero -/

lemma planar_x (cx x v : ℝ) :
    planarDist cx 0 (⟨x, 0, 0, v⟩ : Waypoint) = |cx - x| := by
  rw [planarDist]
  rw [show (cx - x) ^ 2 + ((0:ℝ) - 0) ^ 2 = (cx - x) ^ 2 by ring]
  exact Real.sqrt_sq_eq_abs _

lemma deaccel_as_fold (sd a : ℝ) (B : List Waypoint) (win : List Nat)
    (S : Nat) (D : ℝ) (h : ¬ (S = 0)) :
    deaccel sd a B win S D =
      (((List.range win.length).reverse).foldl
        (deaccelStep ⟨S, D, sd, a, wdistance B win 0 S / (S : ℝ), win⟩)
        (0, 0, B)).2.2 := by
  rw [deaccel.eq_def, if_neg h]

lemma deaccel_zero_stop (sd a : ℝ) (B : List Waypoint) (win : List Nat)
    (D : ℝ) : deaccel sd a B win 0 D = B := by
  rw [deaccel.eq_def, if_pos rfl]

lemma length_deaccel (sd a : ℝ) (B : List Waypoint) (win : List Nat)
    (S : Nat) (D : ℝ) : (deaccel sd a B win S D).length = B.length := by
  by_cases h : S = 0
  · subst h
    rw [deaccel_zero_stop]
  · rw [deaccel_as_fold sd a B win S D h, length_foldl_deaccelStep]

lemma nonv_deaccel (sd a : ℝ) (B : List Waypoint) (win : List Nat)
    (S : Nat) (D : ℝ) (c : Nat) :
    ((deaccel sd a B win S D).getD c wp0).px = (B.getD c wp0).px ∧
    ((deaccel sd a B win S D).getD c wp0).py = (B.getD c wp0).py ∧
    ((deaccel sd a B win S D).getD c wp0).pz = (B.getD c wp0).pz := by
  by_cases h : S = 0
  · subst h
    rw [deaccel_zero_stop]
    exact ⟨rfl, rfl, rfl⟩
  · rw [deaccel_as_fold sd a B win S D h]
    exact nonv_foldl_deaccelStep _ _ _ _

lemma pathC_len : pathC.length = 100 := by
  show ((List.range 100).map
    (fun i : Nat => (⟨(i : ℝ), 0, 0, 5⟩ : Waypoint))).length = 100
  rw [List.length_map, List.length_range]

set_option maxRecDepth 8000

lemma wpScan_improve (cx cy : ℝ) (B : List Waypoint) (off n i : Nat)
    (rest : List Nat) (dist : ℝ) (wp : Option Nat) (fs : Bool)
    (h : planarDist cx cy (B.getD ((i + off) % n) wp0) < dist) :
    wpScan cx cy B off n (i :: rest) dist wp fs
      = wpScan cx cy B off n rest
          (planarDist cx cy (B.getD ((i + off) % n) wp0))
          (some ((i + off) % n)) fs := by
  simp only [wpScan, if_pos h]

lemma wpScan_break (cx cy : ℝ) (B : List Waypoint) (off n i : Nat)
    (rest : List Nat) (dist : ℝ) (wp : Option Nat)
    (h1 : ¬ planarDist cx cy (B.getD ((i + off) % n) wp0) < dist)
    (h2 : dist < max_local_dist) :
    wpScan cx cy B off n (i :: rest) dist wp false = wp := by
  simp only [wpScan, if_neg h1, Bool.false_eq_true, if_false, if_pos h2]

lemma tickC1_next : next_wpUpdate stTickC.base stTickC.pose stTickC.next
    = some 98 := by
  show next_wpUpdate pathC (some (98, 0)) (some 98) = some 98
  have hd98 : planarDist 98 0 (pathC.getD 98 wp0) = 0 := by
    rw [show pathC.getD 98 wp0 = (⟨((98:Nat) : ℝ), 0, 0, 5⟩ : Waypoint)
      from rfl, planar_x]
    push_cast
    norm_num
  have hd99 : planarDist 98 0 (pathC.getD 99 wp0) = 1 := by
    rw [show pathC.getD 99 wp0 = (⟨((99:Nat) : ℝ), 0, 0, 5⟩ : Waypoint)
      from rfl, planar_x]
    push_cast
    norm_num
  have hstart : next_wpUpdate pathC (some (98, 0)) (some 98)
      = wpScan 98 0 pathC 98 100 (List.range 100) 1000000 none false := by
    norm_num [next_wpUpdate, pathC_len, show pathC.isEmpty = false from rfl]
  rw [hstart, show List.range 100 = 0 :: 1 :: List.range' 2 98 from rfl]
  rw [wpScan_improve 98 0 pathC 98 100 0 (1 :: List.range' 2 98) 1000000 none
    false (by
      rw [show ((0:Nat) + 98) % 100 = 98 from rfl, hd98]
      norm_num)]
  rw [show ((0:Nat) + 98) % 100 = 98 from rfl, hd98]
  rw [wpScan_break 98 0 pathC 98 100 1 (List.range' 2 98) 0 (some 98)
    (by
      rw [show ((1:Nat) + 98) % 100 = 99 from rfl, hd99]
      norm_num)
    (by norm_num [max_local_dist])]

lemma tickC1_hinc : ∀ j : Nat, 1 ≤ j →
    j ≤ ((List.range' 1 99).reverse).countP (fun x => decide (x < cfgC1.S)) →
    (0:ℝ) + (j:ℝ) * cfgC1.step ≤ cfgC1.sd := by
  intro j h1 h2
  have hcnt : ((List.range' 1 99).reverse).countP
      (fun x => decide (x < cfgC1.S)) = 0 := by decide
  rw [hcnt] at h2
  exact absurd h2 (by omega)

lemma tickC1_cell0 : cellv B1C 0 = 0 := by
  show cellv (deaccel 5 (-1) pathC (windowIdx 98 100) 1 0) 0 = 0
  rw [deaccel_as_fold 5 (-1) pathC (windowIdx 98 100) 1 0 (by omega),
    show (⟨1, 0, 5, -1, wdistance pathC (windowIdx 98 100) 0 1 / ((1:Nat) : ℝ),
      windowIdx 98 100⟩ : DCfg) = cfgC1 from rfl,
    show (List.range (windowIdx 98 100).length).reverse
      = (List.range' 1 99).reverse ++ [0] by decide,
    List.foldl_append]
  rw [foldl_deaccelStep_frame cfgC1 0 [0] _
    (by
      intro i hi
      rw [List.mem_singleton] at hi
      subst hi
      rw [show cfgC1.win.getD 0 0 = 98 from rfl]
      omega)]
  have hz := foldl_deaccelStep_zero cfgC1 ((List.range' 1 99).reverse) 0 pathC
    tickC1_hinc
  have h := hz.2 2 (by decide)
  rw [show cfgC1.win.getD 2 0 = 0 from rfl] at h
  rw [h, show cellv pathC 0 = (5:ℝ) from rfl]
  exact min_eq_right (by norm_num)

lemma B1C_len : B1C.length = 100 := by
  show (deaccel 5 (-1) pathC (windowIdx 98 100) 1 0).length = 100
  rw [length_deaccel, pathC_len]

lemma tickC2_d98 : planarDist 99 0 (B1C.getD 98 wp0) = 1 := by
  have h := nonv_deaccel 5 (-1) pathC (windowIdx 98 100) 1 0 98
  rw [show B1C = deaccel 5 (-1) pathC (windowIdx 98 100) 1 0 from rfl,
    planarDist, h.1, h.2.1,
    show pathC.getD 98 wp0 = (⟨((98:Nat) : ℝ), 0, 0, 5⟩ : Waypoint) from rfl]
  show Real.sqrt (((99:ℝ) - ((98:Nat) : ℝ)) ^ 2 + ((0:ℝ) - 0) ^ 2) = 1
  rw [show ((99:ℝ) - ((98:Nat) : ℝ)) ^ 2 + ((0:ℝ) - 0) ^ 2 = 1 by
    push_cast
    norm_num]
  exact Real.sqrt_one

lemma tickC2_d99 : planarDist 99 0 (B1C.getD 99 wp0) = 0 := by
  have h := nonv_deaccel 5 (-1) pathC (windowIdx 98 100) 1 0 99
  rw [show B1C = deaccel 5 (-1) pathC (windowIdx 98 100) 1 0 from rfl,
    planarDist, h.1, h.2.1,
    show pathC.getD 99 wp0 = (⟨((99:Nat) : ℝ), 0, 0, 5⟩ : Waypoint) from rfl]
  show Real.sqrt (((99:ℝ) - ((99:Nat) : ℝ)) ^ 2 + ((0:ℝ) - 0) ^ 2) = 0
  rw [show ((99:ℝ) - ((99:Nat) : ℝ)) ^ 2 + ((0:ℝ) - 0) ^ 2 = 0 by
    push_cast
    norm_num]
  exact Real.sqrt_zero

lemma tickC2_d0 : planarDist 99 0 (B1C.getD 0 wp0) = 99 := by
  have h := nonv_deaccel 5 (-1) pathC (windowIdx 98 100) 1 0 0
  rw [show B1C = deaccel 5 (-1) pathC (windowIdx 98 100) 1 0 from rfl,
    planarDist, h.1, h.2.1,
    show pathC.getD 0 wp0 = (⟨((0:Nat) : ℝ), 0, 0, 5⟩ : Waypoint) from rfl]
  show Real.sqrt (((99:ℝ) - ((0:Nat) : ℝ)) ^ 2 + ((0:ℝ) - 0) ^ 2) = 99
  rw [show ((99:ℝ) - ((0:Nat) : ℝ)) ^ 2 + ((0:ℝ) - 0) ^ 2 = (99:ℝ) ^ 2 by
    push_cast
    norm_num]
  exact Real.sqrt_sq (by norm_num)

lemma tickC2_next : next_wpUpdate stTickC3.base stTickC3.pose stTickC3.next
    = some 99 := by
  show next_wpUpdate B1C (some (99, 0)) (some 98) = some 99
  have hne : B1C.isEmpty = false := by
    have h2 := B1C_len
    cases hB : B1C with
    | nil =>
      rw [hB] at h2
      simp at h2
    | cons a l => rfl
  have hstart : next_wpUpdate B1C (some (99, 0)) (some 98)
      = wpScan 99 0 B1C 98 100 (List.range 100) 1000000 none false := by
    norm_num [next_wpUpdate, hne, B1C_len]
  rw [hstart, show List.range 100 = 0 :: 1 :: 2 :: List.range' 3 97 from rfl]
  rw [wpScan_improve 99 0 B1C 98 100 0 (1 :: 2 :: List.range' 3 97) 1000000
    none false (by
      rw [show ((0:Nat) + 98) % 100 = 98 from rfl, tickC2_d98]
      norm_num)]
  rw [show ((0:Nat) + 98) % 100 = 98 from rfl, tickC2_d98]
  rw [wpScan_improve 99 0 B1C 98 100 1 (2 :: List.range' 3 97) 1 (some 98)
    false (by
      rw [show ((1:Nat) + 98) % 100 = 99 from rfl, tickC2_d99]
      norm_num)]
  rw [show ((1:Nat) + 98) % 100 = 99 from rfl, tickC2_d99]
  rw [wpScan_break 99 0 B1C 98 100 2 (List.range' 3 97) 0 (some 99)
    (by
      rw [show ((2:Nat) + 98) % 100 = 0 from rfl, tickC2_d0]
      norm_num)
    (by norm_num [max_local_dist])]

lemma tickC1_eval : updatePublish stTickC =
    (stTickC2, some (finalWindow B1C (windowIdx 98 100))) := by
  simp only [updatePublish, tickC1_next]
  simp [stTickC2, B1C,
    show stTickC.stop_on_red = false from rfl,
    show stTickC.force_stop = true from rfl,
    show stTickC.base = pathC from rfl,
    pathC_len,
    show stTickC.stop_distance = (5:ℝ) from rfl,
    show stTickC.accel = (-1:ℝ) from rfl,
    show (windowIdx 98 100).findIdx? (fun x => x == 99) = some 1 from rfl]

lemma tickC2_eval : updatePublish stTickC3 =
    ({ stTickC3 with next := some 99, base := B1C },
      some (finalWindow B1C (windowIdx 99 100))) := by
  simp only [updatePublish, tickC2_next]
  simp [show stTickC3.stop_on_red = false from rfl,
    show stTickC3.force_stop = true from rfl,
    show stTickC3.base = B1C from rfl,
    B1C_len,
    show stTickC3.stop_distance = (5:ℝ) from rfl,
    show stTickC3.accel = (-1:ℝ) from rfl,
    show (windowIdx 99 100).findIdx? (fun x => x == 99) = some 0 from rfl,
    deaccel_zero_stop]

/-- C2 (counterexample to the claim as stated): on the 100-waypoint path
`pathC` (so each of the 100 window slots references a distinct waypoint)
with `stop_on_red` disabled and the end-of-path stop forced, the planning
tick from waypoint 98 zeroes waypoint 0 through the window's wrap-around
slot; after a pose callback advances the car to waypoint 99, the next
tick finds the last waypoint at window offset 0, so its `deaccel` call
returns immediately (`stop_index <= 0`) and the tick changes no stored
velocity at all (second conjunct) — yet it publishes window entry 1
(waypoint 0) with velocity 0 instead of the baseline 5 recorded at load.
Had each tick's window held fresh copies restored to baseline, this tick
would have published 5; the 0 is the previous tick's profiled velocity
carried forward. -/
theorem window_velocity_not_restored_when_stop_on_red_false :
    ∃ pub2,
      (updatePublish (pose_cb (updatePublish stTickC).1 (99, 0))).2
        = some pub2 ∧
      (updatePublish (pose_cb (updatePublish stTickC).1 (99, 0))).1.base
        = (pose_cb (updatePublish stTickC).1 (99, 0)).base ∧
      (pub2.getD 1 wp0).v = 0 ∧
      stTickC.orig.getD 0 0 = 5 ∧
      (pub2.getD 1 wp0).v ≠ stTickC.orig.getD 0 0 := by
  have hst2 : (updatePublish stTickC).1 = stTickC2 := by rw [tickC1_eval]
  have hst3 : pose_cb (updatePublish stTickC).1 (99, 0) = stTickC3 := by
    show pose_cb (updatePublish stTickC).1 (99, 0) = pose_cb stTickC2 (99, 0)
    exact congrArg (fun s => pose_cb s (99, 0)) hst2
  have hv : ((finalWindow B1C (windowIdx 99 100)).getD 1 wp0).v = 0 := by
    show cellv B1C 0 = 0
    exact tickC1_cell0
  refine ⟨finalWindow B1C (windowIdx 99 100), ?_, ?_, hv, rfl, ?_⟩
  · rw [hst3, tickC2_eval]
  · rw [hst3, tickC2_eval]
    rfl
  · rw [hv, show stTickC.orig.getD 0 0 = (5:ℝ) from rfl]
    norm_num

end SysInt
